import Mathlib

/-!
Verification development for `rootpy/datasets.py`.

The single routine with real logic is `get_sample(name, periods=None)`:
it validates the on-disk layout of a sample, parses an XML metadata file,
classifies the sample against two vocabulary tables (`classes`, `types`),
and aggregates data files, deduplicating run "editions" for recorded data
and optionally filtering runs by named data-taking periods.

The development below is a shallow embedding of that module.  The
filesystem and the XML document are abstracted into explicit input data
(`SampleInput`, `MetaDoc`); Python floats are modelled as exact rationals;
Python `print` diagnostics are modelled as a list of structured messages
(`Msg`); an uncaught Python exception is modelled as `Except.error`
(`PyErr`), while the routine returning `None` is `Except.ok none`.

The recorded-data directory-name regular expression `datapattern` is
embedded as an executable backtracking matcher (`matchData`) with the
same alternative-ordering and greedy (longest-first) semantics as the
Python `re` engine on this pattern; in particular the unescaped `.`
occurrences match any character except a newline, and `$` accepts the end
of the string or a position just before one final newline.
-/

namespace Rootpy

/-- Python `str.upper()` (ASCII), acting on the character list. -/
def upperStr (s : String) : String := String.mk (s.data.map Char.toUpper)

/-- Character class `[0-9]` of the patterns. -/
def isDigit (c : Char) : Bool := c.isDigit

/-- Character class `[^.]` of the patterns (it does match a newline). -/
def notDot (c : Char) : Bool := c != '.'

/-- Character class `[0-9\-]` of the `version` group. -/
def verChar (c : Char) : Bool := c.isDigit || c == '-'

/-- Value of a decimal digit string, Python `int(...)` on the captured group. -/
def digitsToNat (l : List Char) : Nat := l.foldl (fun a c => 10 * a + (c.toNat - 48)) 0

/-- All ways of splitting `l` into a nonempty prefix of characters
satisfying `p` followed by the rest, longest prefix first: the order in
which a greedy `+` quantifier hands candidate splits to its continuation. -/
def splitsDesc (p : Char → Bool) (l : List Char) : List (List Char × List Char) :=
  let m := l.takeWhile p
  let r := l.dropWhile p
  (List.range m.length).map (fun i => (m.take (m.length - i), m.drop (m.length - i) ++ r))

/-- Matching a literal piece of the pattern: consume `s` from the front. -/
def lit (s l : List Char) : Option (List Char) :=
  if s.isPrefixOf l then some (l.drop s.length) else none

/-- A greedy `X+` group: try each candidate split, longest captured group
first, passing the captured group and the rest to the continuation. -/
def plusCap (p : Char → Bool) (l : List Char) (k : List Char → List Char → Option α) :
    Option α :=
  (splitsDesc p l).findSome? (fun pr => k pr.1 pr.2)

/-- An unescaped `.` of the pattern: consume one character that is not a
newline. -/
def anyC (l : List Char) (k : List Char → Option α) : Option α :=
  match l with
  | [] => none
  | c :: rest => if c = '\n' then none else k rest

/-- Python `$`: end of string, or just before one final newline. -/
def endOk (r : List Char) : Bool := r.isEmpty || r == ['\n']

/-- The tail group `(?P<size>SMALL$|MEDIUM$)` of `datapattern`. -/
def sizeOk (l : List Char) : Bool :=
  (match lit ("SMALL".data) l with
   | some r => endOk r
   | none => false) ||
  (match lit ("MEDIUM".data) l with
   | some r => endOk r
   | none => false)

/-- The backtracking matcher for `datapattern`,

`^group(?P<year>[0-9]+).(?P<group>[^.]+).(?P<run>[0-9]+).(?P<stream>[^.]+).(?P<tag>[^.]+).(?P<version>[0-9\-]+).D3PD(?:.(?P<edition>[0-9]+))?_StreamD3PD_Tau(?P<size>SMALL$|MEDIUM$)`,

returning the captured run number and, when the optional edition group
participated in the match, the captured edition number. -/
def matchData (l : List Char) : Option (Nat × Option Nat) :=
  (lit ("group".data) l).bind (fun l1 =>
  plusCap isDigit l1 (fun _year l2 =>
  anyC l2 (fun l3 =>
  plusCap notDot l3 (fun _grp l4 =>
  anyC l4 (fun l5 =>
  plusCap isDigit l5 (fun run l6 =>
  anyC l6 (fun l7 =>
  plusCap notDot l7 (fun _stream l8 =>
  anyC l8 (fun l9 =>
  plusCap notDot l9 (fun _tag l10 =>
  anyC l10 (fun l11 =>
  plusCap verChar l11 (fun _ver l12 =>
  anyC l12 (fun l13 =>
  (lit ("D3PD".data) l13).bind (fun l14 =>
  ((anyC l14 (fun l15 =>
      plusCap isDigit l15 (fun ed l16 =>
      (lit ("_StreamD3PD_Tau".data) l16).bind (fun l17 =>
      if sizeOk l17 then some (digitsToNat run, some (digitsToNat ed)) else none)))) <|>
   ((lit ("_StreamD3PD_Tau".data) l14).bind (fun l17 =>
      if sizeOk l17 then some (digitsToNat run, (none : Option Nat)) else none)))))))))))))))))

/-- Helper for `specTemplateMatch`: the same combinators as `matchData`,
with every separator a literal `'.'` and the tail literal
`_StreamD3PDTau`. -/
def matchSpecFrom (l : List Char) : Option Unit :=
  (lit ("group".data) l).bind (fun l1 =>
  plusCap isDigit l1 (fun _year l2 =>
  (lit (['.']) l2).bind (fun l3 =>
  plusCap notDot l3 (fun _grp l4 =>
  (lit (['.']) l4).bind (fun l5 =>
  plusCap isDigit l5 (fun _run l6 =>
  (lit (['.']) l6).bind (fun l7 =>
  plusCap notDot l7 (fun _stream l8 =>
  (lit (['.']) l8).bind (fun l9 =>
  plusCap notDot l9 (fun _tag l10 =>
  (lit (['.']) l10).bind (fun l11 =>
  plusCap verChar l11 (fun _ver l12 =>
  (lit (['.']) l12).bind (fun l13 =>
  (lit ("D3PD".data) l13).bind (fun l14 =>
  (((lit (['.']) l14).bind (fun l15 =>
      plusCap isDigit l15 (fun _ed l16 =>
      (lit ("_StreamD3PDTau".data) l16).bind (fun l17 =>
      if l17 = ("SMALL".data) ∨ l17 = ("MEDIUM".data) then some () else none)))) <|>
   ((lit ("_StreamD3PDTau".data) l14).bind (fun l17 =>
      if l17 = ("SMALL".data) ∨ l17 = ("MEDIUM".data) then some () else none)))))))))))))))))

/-- The spec's reading of the recorded-data grammar, followed word for
word as a template with *literal* dot separators, the literal
`_StreamD3PDTau` (as printed in the spec), and anchoring at the string
end: `group<year>.<group>.<run>.<stream>.<tag>.<version>.D3PD[.<edition>]_StreamD3PDTau(SMALL|MEDIUM)`.
The field classes are those named by the spec (year/run/edition numeric,
version digits and dashes, the other fields arbitrary non-dot text). -/
def specTemplateMatch (l : List Char) : Bool :=
  (matchSpecFrom l).isSome

/-! ### The module's static tables (`datasets.py`, lines 13–31) -/

/-- Table `classes`: BACKGROUND maps to 0, SIGNAL to 1. -/
def classes : List (String × Nat) := [("BACKGROUND", 0), ("SIGNAL", 1)]

/-- Table `types`: DATA maps to 0, MC to 1. -/
def types : List (String × Nat) := [("DATA", 0), ("MC", 1)]

/-- Table `data_periods`: period label to the `xrange(lo, hi)` pair; membership
of a run number is `lo ≤ r < hi`. -/
def data_periods : List (String × (Nat × Nat)) :=
  [("AB", (152166, 155161)), ("C", (155228, 156683)), ("D", (158045, 159225)),
   ("E", (160387, 161949)), ("F", (162347, 162883)), ("G", (165591, 166384)),
   ("H", (166466, 166965))]

/-! ### Metadata document and its parse (`datasets.py`, lines 47–56) -/

/-- Python arithmetic expressions that can stand in the free-text
`<weight>` field; `bad` models text that `eval`/`float` rejects
(a syntax error, an unknown name, a non-numeric value).  Numbers are
modelled as exact rationals. -/
inductive PyExpr where
  | num (q : ℚ)
  | add (a b : PyExpr)
  | sub (a b : PyExpr)
  | mul (a b : PyExpr)
  | div (a b : PyExpr)
  | bad
  deriving DecidableEq

/-- Python `float(eval(text))` on the weight text: arithmetic evaluation;
`none` models a raised exception (bad expression, division by zero). -/
def evalExpr : PyExpr → Option ℚ
  | .num q => some q
  | .add a b => (evalExpr a).bind (fun x => (evalExpr b).map (fun y => x + y))
  | .sub a b => (evalExpr a).bind (fun x => (evalExpr b).map (fun y => x - y))
  | .mul a b => (evalExpr a).bind (fun x => (evalExpr b).map (fun y => x * y))
  | .div a b => (evalExpr a).bind (fun x => (evalExpr b).bind (fun y =>
      if y = 0 then none else some (x / y)))
  | .bad => none

/-- The parsed shape of `meta.xml` as the code reads it with `minidom`:
each field is `some` when the element and its first child text node
exist (`none` models the `IndexError` raised by a missing node). -/
structure MetaDoc where
  typeField : Option String
  classField : Option String
  weightField : Option PyExpr
  treeField : Option String
  deriving DecidableEq

/-- The four scalars the `try` block extracts on success. -/
structure Meta where
  datatype : String
  classname : String
  weight : ℚ
  treename : String
  deriving DecidableEq

/-- The `try` block of `get_sample` (lines 47–56): `minidom.parse` may
fail (`xml = .error ()`), each field access may fail, the weight text is
evaluated; any failure is the caught exception (`Except.error ()`).
The type and class strings are uppercased. -/
def parseMeta (xml : Except Unit MetaDoc) : Except Unit Meta :=
  match xml with
  | .error _ => .error ()
  | .ok doc =>
    match doc.typeField, doc.classField, doc.weightField, doc.treeField with
    | some t, some c, some w, some tr =>
      match evalExpr w with
      | some q => .ok ⟨upperStr t, upperStr c, q, tr⟩
      | none => .error ()
    | _, _, _, _ => .error ()

/-! ### Filesystem abstraction and globbing -/

/-- One directory entry under the sample root: its basename, whether it
is a directory, and (for directories) the basenames of its own entries
in enumeration order. -/
structure Entry where
  name : String
  isDir : Bool
  entries : List String
  deriving DecidableEq

/-- A basename the `glob` module hides: one starting with a dot. -/
def isHidden (s : String) : Bool :=
  match s.data with
  | [] => false
  | c :: _ => c == '.'

/-- Whether `pat` occurs as a contiguous sublist of the second argument. -/
def containsList (pat : List Char) : List Char → Bool
  | [] => pat.isEmpty
  | c :: rest => pat.isPrefixOf (c :: rest) || containsList pat rest

/-- The fnmatch meaning of the `*root*` pattern on one basename:
"root" occurs as a case-sensitive substring. -/
def containsRoot (s : String) : Bool := containsList ("root".data) s.data

/-- Python `glob.glob(os.path.join(base, '*'))`: every entry whose name is not
hidden, in enumeration order. -/
def globStar (entries : List Entry) : List Entry :=
  entries.filter (fun e => !isHidden e.name)

/-- Python `glob.glob(os.path.join(dir, '*root*'))` on the entry basenames of
one directory: non-hidden names containing "root", in enumeration
order. -/
def globRoot (names : List String) : List String :=
  names.filter (fun n => !isHidden n && containsRoot n)

/-! ### Diagnostics, the aggregation loop and `get_sample` -/

/-- One `print` line of `get_sample`, structured. -/
inductive Msg where
  | sampleNotFound (name : String)
  | metadataNotFound (name : String)
  | couldNotParse
  | classNotDefined (c : String)
  | typeNotDefined (t : String)
  | useOneOfThese
  | keyName (k : String)
  | noneDefined
  | invalidDirName (d : String)
  | periodNotDefined (p : String)
  | multipleEditions (d : String)
  deriving DecidableEq

/-- The "Use one of these:" enumeration of a vocabulary table (or the
"none have been defined" line for an empty table). -/
def tableDiag (t : List (String × Nat)) : List Msg :=
  if t.length > 0 then Msg.useOneOfThese :: t.map (fun kv => Msg.keyName kv.1)
  else [Msg.noneDefined]

/-- One stored entry of the `runs` dictionary: the retained edition and
the retained directory. -/
structure RunEntry where
  edition : Nat
  dir : Entry
  deriving DecidableEq

/-- The inner loop `for period in periods` of lines 94–101: scan the
labels in order; an undefined label is an abort (`.error label`); a
label whose range contains the run number stops the scan (`.ok true`);
scanning off the end yields `.ok false`. -/
def periodScan (r : Nat) : List String → Except String Bool
  | [] => .ok false
  | p :: rest =>
    match data_periods.lookup p with
    | none => .error p
    | some range => if range.1 ≤ r && r < range.2 then .ok true else periodScan r rest

/-- What the period filter decides for one parsed directory. -/
inductive PDecision where
  | keep
  | skip
  | abort (p : String)
  deriving DecidableEq

/-- Lines 93–103: no filter keeps every directory; otherwise the scan
keeps, skips, or aborts. -/
def periodCheck (periods : Option (List String)) (run : Nat) : PDecision :=
  match periods with
  | none => .keep
  | some ps =>
    match periodScan run ps with
    | .error p => .abort p
    | .ok true => .keep
    | .ok false => .skip

/-- Python dict assignment to an existing key: replace the stored value,
keeping the entry's position. -/
def updateRun (runs : List (Nat × RunEntry)) (r : Nat) (v : RunEntry) :
    List (Nat × RunEntry) :=
  match runs with
  | [] => []
  | (k, w) :: rest => if k = r then (k, v) :: rest else (k, w) :: updateRun rest r v

/-- The `for dir in actualdirs` loop of the DATA branch (lines 86–112):
parse each basename, apply the period filter, and fold the run/edition
deduplication into the `runs` association list (insertion-ordered, as a
Python dict).  `.error ()` models the `return None` on an undefined
period label. -/
def dataLoop (periods : Option (List String)) :
    List Entry → List (Nat × RunEntry) → List Msg →
    List Msg × Except Unit (List (Nat × RunEntry))
  | [], runs, msgs => (msgs, .ok runs)
  | dir :: rest, runs, msgs =>
    match matchData dir.name.data with
    | none => dataLoop periods rest runs (msgs ++ [Msg.invalidDirName dir.name])
    | some (run, edo) =>
      match periodCheck periods run with
      | .abort p => (msgs ++ [Msg.periodNotDefined p], .error ())
      | .skip => dataLoop periods rest runs msgs
      | .keep =>
        let edition := edo.getD 0
        match runs.lookup run with
        | some old =>
          if edition > old.edition then
            dataLoop periods rest (updateRun runs run ⟨edition, dir⟩)
              (msgs ++ [Msg.multipleEditions dir.name])
          else
            dataLoop periods rest runs (msgs ++ [Msg.multipleEditions dir.name])
        | none => dataLoop periods rest (runs ++ [(run, ⟨edition, dir⟩)]) msgs

/-- Lines 113–114: for every retained run, glob `*root*` inside the
winning directory; paths are `dirname/basename`. -/
def mkFiles (runs : List (Nat × RunEntry)) : List String :=
  runs.flatMap (fun kv => (globRoot kv.2.dir.entries).map (fun f => kv.2.dir.name ++ "/" ++ f))

/-- The resolved output record (`Dataset` namedtuple). -/
structure Dataset where
  name : String
  datatype : Nat
  classtype : Nat
  treename : String
  weight : ℚ
  files : List String
  deriving DecidableEq

/-- Lines 76–80: enumerate the sample root with `glob('*')` and retain
the entries that are directories. -/
def actualDirs (entries : List Entry) : List Entry :=
  (globStar entries).filter (fun e => e.isDir)

/-- Lines 117–119, the MC branch: glob `*root*` inside every candidate
directory, in enumeration order, no deduplication. -/
def mcFiles (dirs : List Entry) : List String :=
  dirs.flatMap (fun d => (globRoot d.entries).map (fun f => d.name ++ "/" ++ f))

/-- Lines 115–116: `if periods: samplename += "_%s" % "".join(periods)`;
a `None` or empty filter (falsy) leaves the name unchanged. -/
def suffixName (name : String) (periods : Option (List String)) : String :=
  match periods with
  | some ps =>
    if ps.isEmpty then name else name ++ "_" ++ String.mk (ps.flatMap String.data)
  | none => name

/-- Everything `get_sample` reads from the world for one call: the
sample name, the two layout checks, the metadata document, and the
sample root's entries in enumeration order. -/
structure SampleInput where
  name : String
  baseIsDir : Bool
  metaIsFile : Bool
  xml : Except Unit MetaDoc
  rootEntries : List Entry

/-- An uncaught Python exception escaping `get_sample`. -/
inductive PyErr where
  | keyError (k : String)
  deriving DecidableEq

/-- The resolver `get_sample(name, periods)` (lines 37–120).  The first component is
the sequence of printed diagnostics; the second is `.ok none` for the
`return None` paths, `.ok (some d)` for a resolved dataset, and
`.error e` for an uncaught exception.  Note the faithful slip at lines
67–75: an unknown datatype prints its diagnostic but does not return,
so the subsequent `types[datatype]` raises a `KeyError`. -/
def get_sample (inp : SampleInput) (periods : Option (List String)) :
    List Msg × Except PyErr (Option Dataset) :=
  if inp.baseIsDir = false then
    ([Msg.sampleNotFound inp.name], .ok none)
  else if inp.metaIsFile = false then
    ([Msg.metadataNotFound inp.name], .ok none)
  else
    match parseMeta inp.xml with
    | .error _ => ([Msg.couldNotParse], .ok none)
    | .ok m =>
      match classes.lookup m.classname with
      | none => (Msg.classNotDefined m.classname :: tableDiag classes, .ok none)
      | some classtype =>
        match types.lookup m.datatype with
        | none =>
          (Msg.typeNotDefined m.datatype :: tableDiag types,
           .error (PyErr.keyError m.datatype))
        | some datatype =>
          if types.lookup "DATA" = some datatype then
            match dataLoop periods (actualDirs inp.rootEntries) [] [] with
            | (msgs, .error _) => (msgs, .ok none)
            | (msgs, .ok runs) =>
              (msgs, .ok (some ⟨suffixName inp.name periods, datatype, classtype,
                m.treename, m.weight, mkFiles runs⟩))
          else
            ([], .ok (some ⟨inp.name, datatype, classtype, m.treename, m.weight,
              mcFiles (actualDirs inp.rootEntries)⟩))

/-! ### Characterization lemmas for the pattern combinators -/

theorem takeWhile_append_all {p : Char → Bool} {a : List Char} (b : List Char)
    (h : ∀ c ∈ a, p c = true) : (a ++ b).takeWhile p = a ++ b.takeWhile p := by
  induction a with
  | nil => simp
  | cons x t ih =>
    have hx : p x = true := h x (List.mem_cons_self x t)
    simp only [List.cons_append, List.takeWhile_cons_of_pos hx, List.cons.injEq, true_and]
    exact ih (fun c hc => h c (List.mem_cons_of_mem x hc))

theorem dropWhile_append_all {p : Char → Bool} {a : List Char} (b : List Char)
    (h : ∀ c ∈ a, p c = true) : (a ++ b).dropWhile p = b.dropWhile p := by
  induction a with
  | nil => simp
  | cons x t ih =>
    have hx : p x = true := h x (List.mem_cons_self x t)
    simp only [List.cons_append, List.dropWhile_cons_of_pos hx]
    exact ih (fun c hc => h c (List.mem_cons_of_mem x hc))

theorem splitsDesc_mem {p : Char → Bool} {l a b : List Char} :
    (a, b) ∈ splitsDesc p l ↔ a ≠ [] ∧ (∀ c ∈ a, p c = true) ∧ l = a ++ b := by
  unfold splitsDesc
  simp only [List.mem_map, List.mem_range, Prod.mk.injEq]
  constructor
  · rintro ⟨i, hi, hta, htb⟩
    set m := l.takeWhile p with hm
    have hj1 : 1 ≤ m.length - i := by omega
    have hj2 : m.length - i ≤ m.length := by omega
    refine ⟨?_, ?_, ?_⟩
    · intro hnil
      have : (m.take (m.length - i)).length = 0 := by rw [hta, hnil]; rfl
      rw [List.length_take] at this
      omega
    · intro c hc
      rw [← hta] at hc
      exact List.mem_takeWhile_imp (List.take_subset _ _ hc)
    · rw [← hta, ← htb, ← List.append_assoc, List.take_append_drop]
      exact (List.takeWhile_append_dropWhile p l).symm
  · rintro ⟨hne, hall, rfl⟩
    have hm : (a ++ b).takeWhile p = a ++ b.takeWhile p := takeWhile_append_all b hall
    have hr : (a ++ b).dropWhile p = b.dropWhile p := dropWhile_append_all b hall
    have hlen : a.length ≤ ((a ++ b).takeWhile p).length := by
      rw [hm, List.length_append]; omega
    have hane : 1 ≤ a.length := by
      cases a with
      | nil => exact absurd rfl hne
      | cons x t => simp
    refine ⟨((a ++ b).takeWhile p).length - a.length, by omega, ?_, ?_⟩
    · have : ((a ++ b).takeWhile p).length - (((a ++ b).takeWhile p).length - a.length) =
          a.length := by omega
      rw [this, hm, List.take_left' rfl]
    · have : ((a ++ b).takeWhile p).length - (((a ++ b).takeWhile p).length - a.length) =
          a.length := by omega
      rw [this, hm, hr, List.drop_left' rfl, List.takeWhile_append_dropWhile]

theorem findSome?_isSome {α β : Type} {f : α → Option β} {xs : List α} :
    (xs.findSome? f).isSome = true ↔ ∃ x ∈ xs, (f x).isSome = true := by
  induction xs with
  | nil => simp [List.findSome?]
  | cons a t ih =>
    rw [List.findSome?]
    cases h : f a <;> simp [h, ih]

theorem plusCap_isSome {α : Type} {p : Char → Bool} {l : List Char}
    {k : List Char → List Char → Option α} :
    (plusCap p l k).isSome = true ↔
      ∃ a b, l = a ++ b ∧ a ≠ [] ∧ (∀ c ∈ a, p c = true) ∧ (k a b).isSome = true := by
  unfold plusCap
  rw [findSome?_isSome]
  constructor
  · rintro ⟨⟨a, b⟩, hmem, hk⟩
    obtain ⟨hne, hall, hl⟩ := splitsDesc_mem.mp hmem
    exact ⟨a, b, hl, hne, hall, hk⟩
  · rintro ⟨a, b, hl, hne, hall, hk⟩
    exact ⟨(a, b), splitsDesc_mem.mpr ⟨hne, hall, hl⟩, hk⟩

theorem lit_eq_some {s l r : List Char} : lit s l = some r ↔ l = s ++ r := by
  unfold lit
  constructor
  · intro h
    split at h
    · next hp =>
      obtain ⟨t, ht⟩ := (List.isPrefixOf_iff_prefix.mp hp)
      cases h
      rw [← ht, List.drop_left]
    · cases h
  · rintro rfl
    rw [if_pos (List.isPrefixOf_iff_prefix.mpr ⟨r, rfl⟩), List.drop_left]

theorem lit_bind_isSome {α : Type} {s l : List Char} {k : List Char → Option α} :
    ((lit s l).bind k).isSome = true ↔ ∃ r, l = s ++ r ∧ (k r).isSome = true := by
  cases h : lit s l with
  | none =>
    simp only [Option.none_bind, Option.isSome_none, Bool.false_eq_true, false_iff]
    rintro ⟨r, hl, _⟩
    rw [lit_eq_some.mpr hl] at h
    cases h
  | some r =>
    have hl := lit_eq_some.mp h
    simp only [Option.some_bind, iff_def]
    constructor
    · intro hk
      exact ⟨r, hl, hk⟩
    · rintro ⟨r2, hl2, hk⟩
      have : r = r2 := by
        rw [hl] at hl2
        exact List.append_cancel_left hl2
      rw [this]
      exact hk

theorem anyC_isSome {α : Type} {l : List Char} {k : List Char → Option α} :
    (anyC l k).isSome = true ↔
      ∃ c rest, l = c :: rest ∧ c ≠ '\n' ∧ (k rest).isSome = true := by
  cases l with
  | nil => simp [anyC]
  | cons c rest =>
    unfold anyC
    by_cases hc : c = '\n'
    · simp only [if_pos hc, Option.isSome_none, Bool.false_eq_true, false_iff]
      rintro ⟨c2, r2, heq, hne, _⟩
      cases heq
      exact hne hc
    · simp only [if_neg hc]
      constructor
      · intro hk
        exact ⟨c, rest, rfl, hc, hk⟩
      · rintro ⟨c2, r2, heq, _, hk⟩
        cases heq
        exact hk

theorem orElse_isSome {α : Type} {a b : Option α} :
    (a <|> b).isSome = true ↔ a.isSome = true ∨ b.isSome = true := by
  cases a <;> simp

theorem ite_some_isSome {α : Type} {c : Prop} [Decidable c] {v : α} :
    (if c then some v else (none : Option α)).isSome = true ↔ c := by
  split <;> simp_all

theorem endOk_iff {r : List Char} : endOk r = true ↔ r = [] ∨ r = ['\n'] := by
  unfold endOk
  cases r with
  | nil => simp
  | cons c t => simp

theorem sizeOk_iff {l : List Char} :
    sizeOk l = true ↔
      ∃ size tail, l = size ++ tail ∧
        (size = ("SMALL".data) ∨ size = ("MEDIUM".data)) ∧ (tail = [] ∨ tail = ['\n']) := by
  unfold sizeOk
  rw [Bool.or_eq_true]
  constructor
  · rintro (h | h)
    · cases hm : lit ("SMALL".data) l with
      | none => rw [hm] at h; cases h
      | some r =>
        rw [hm] at h
        exact ⟨_, r, lit_eq_some.mp hm, Or.inl rfl, endOk_iff.mp h⟩
    · cases hm : lit ("MEDIUM".data) l with
      | none => rw [hm] at h; cases h
      | some r =>
        rw [hm] at h
        exact ⟨_, r, lit_eq_some.mp hm, Or.inr rfl, endOk_iff.mp h⟩
  · rintro ⟨size, tail, rfl, hsize | hsize, htail⟩ <;> subst hsize
    · left
      rw [lit_eq_some.mpr rfl]
      exact endOk_iff.mpr htail
    · right
      rw [lit_eq_some.mpr rfl]
      exact endOk_iff.mpr htail

/-- The declarative reading of `datapattern`: the basename decomposes
into the template
`group<year><s><group><s><run><s><stream><s><tag><s><version><s>D3PD[<s><edition>]_StreamD3PD_Tau(SMALL|MEDIUM)`
where each `<s>` separator is one arbitrary character other than a
newline (the template's dots are unescaped in the source pattern), the
tail literal is `_StreamD3PD_Tau`, and the match is anchored at the
string end or just before one final newline. -/
def DataDecomp (l : List Char) : Prop :=
  ∃ (year grp run stream tag ver edpart size tail : List Char) (c1 c2 c3 c4 c5 c6 : Char),
    l = ("group".data) ++ year ++ [c1] ++ grp ++ [c2] ++ run ++ [c3] ++ stream ++ [c4] ++
        tag ++ [c5] ++ ver ++ [c6] ++ ("D3PD".data) ++ edpart ++
        ("_StreamD3PD_Tau".data) ++ size ++ tail ∧
    year ≠ [] ∧ (∀ c ∈ year, isDigit c = true) ∧
    grp ≠ [] ∧ (∀ c ∈ grp, notDot c = true) ∧
    run ≠ [] ∧ (∀ c ∈ run, isDigit c = true) ∧
    stream ≠ [] ∧ (∀ c ∈ stream, notDot c = true) ∧
    tag ≠ [] ∧ (∀ c ∈ tag, notDot c = true) ∧
    ver ≠ [] ∧ (∀ c ∈ ver, verChar c = true) ∧
    c1 ≠ '\n' ∧ c2 ≠ '\n' ∧ c3 ≠ '\n' ∧ c4 ≠ '\n' ∧ c5 ≠ '\n' ∧ c6 ≠ '\n' ∧
    (edpart = [] ∨ ∃ (c7 : Char) (ed : List Char),
        edpart = c7 :: ed ∧ c7 ≠ '\n' ∧ ed ≠ [] ∧ ∀ c ∈ ed, isDigit c = true) ∧
    (size = ("SMALL".data) ∨ size = ("MEDIUM".data)) ∧
    (tail = [] ∨ tail = ['\n'])

/-- The backtracking matcher `matchData` succeeds exactly on the
basenames admitting the declarative decomposition. -/
theorem matchData_isSome_iff (l : List Char) :
    (matchData l).isSome = true ↔ DataDecomp l := by
  constructor
  · intro h
    simp only [matchData, lit_bind_isSome, plusCap_isSome, anyC_isSome, orElse_isSome,
      ite_some_isSome, sizeOk_iff] at h
    obtain ⟨l1, hl, year, l2, h1, hyne, hyall, c1, l3, h2, hc1,
      grp, l4, h3, hgne, hgall, c2, l5, h4, hc2,
      run, l6, h5, hrne, hrall, c3, l7, h6, hc3,
      stream, l8, h7, hsne, hsall, c4, l9, h8, hc4,
      tag, l10, h9, htne, htall, c5, l11, h10, hc5,
      ver, l12, h11, hvne, hvall, c6, l13, h12, hc6,
      l14, h13, hrest⟩ := h
    subst hl h1 h2 h3 h4 h5 h6 h7 h8 h9 h10 h11 h12 h13
    rcases hrest with ⟨c7, l15, h14, hc7, ed, l16, h15, hedne, hedall, l17, h16,
        size, tail, h17, hsize, htail⟩ | ⟨l17, h16, size, tail, h17, hsize, htail⟩
    · subst h14 h15 h16 h17
      refine ⟨year, grp, run, stream, tag, ver, c7 :: ed, size, tail,
        c1, c2, c3, c4, c5, c6, ?_, hyne, hyall, hgne, hgall, hrne, hrall,
        hsne, hsall, htne, htall, hvne, hvall, hc1, hc2, hc3, hc4, hc5, hc6,
        Or.inr ⟨c7, ed, rfl, hc7, hedne, hedall⟩, hsize, htail⟩
      simp [List.append_assoc]
    · subst h16 h17
      refine ⟨year, grp, run, stream, tag, ver, [], size, tail,
        c1, c2, c3, c4, c5, c6, ?_, hyne, hyall, hgne, hgall, hrne, hrall,
        hsne, hsall, htne, htall, hvne, hvall, hc1, hc2, hc3, hc4, hc5, hc6,
        Or.inl rfl, hsize, htail⟩
      simp [List.append_assoc]
  · intro h
    obtain ⟨year, grp, run, stream, tag, ver, edpart, size, tail,
      c1, c2, c3, c4, c5, c6, hl, hyne, hyall, hgne, hgall, hrne, hrall,
      hsne, hsall, htne, htall, hvne, hvall, hc1, hc2, hc3, hc4, hc5, hc6,
      hed, hsize, htail⟩ := h
    simp only [List.append_assoc, List.singleton_append, List.cons_append] at hl
    subst hl
    simp only [matchData, lit_bind_isSome, plusCap_isSome, anyC_isSome, orElse_isSome,
      ite_some_isSome, sizeOk_iff]
    rcases hed with rfl | ⟨c7, ed, rfl, hc7, hedne, hedall⟩
    · simp only [List.nil_append]
      exact ⟨_, rfl, year, _, rfl, hyne, hyall, c1, _, rfl, hc1,
        grp, _, rfl, hgne, hgall, c2, _, rfl, hc2,
        run, _, rfl, hrne, hrall, c3, _, rfl, hc3,
        stream, _, rfl, hsne, hsall, c4, _, rfl, hc4,
        tag, _, rfl, htne, htall, c5, _, rfl, hc5,
        ver, _, rfl, hvne, hvall, c6, _, rfl, hc6,
        _, rfl, Or.inr ⟨_, rfl, size, tail, rfl, hsize, htail⟩⟩
    · simp only [List.cons_append]
      exact ⟨_, rfl, year, _, rfl, hyne, hyall, c1, _, rfl, hc1,
        grp, _, rfl, hgne, hgall, c2, _, rfl, hc2,
        run, _, rfl, hrne, hrall, c3, _, rfl, hc3,
        stream, _, rfl, hsne, hsall, c4, _, rfl, hc4,
        tag, _, rfl, htne, htall, c5, _, rfl, hc5,
        ver, _, rfl, hvne, hvall, c6, _, rfl, hc6,
        _, rfl, Or.inl ⟨c7, _, rfl, hc7, ed, _, rfl, hedne, hedall,
          _, rfl, size, tail, rfl, hsize, htail⟩⟩

/-! ### Inversion and loop lemmas for `get_sample` -/

theorem lookup_mem {β : Type} {l : List (String × β)} {k : String} {v : β}
    (h : l.lookup k = some v) : ∃ k2, (k2, v) ∈ l := by
  induction l with
  | nil => cases h
  | cons kv t ih =>
    rw [List.lookup_cons] at h
    split at h
    · cases h
      exact ⟨kv.1, by simp⟩
    · obtain ⟨k2, hk2⟩ := ih h
      exact ⟨k2, List.mem_cons_of_mem _ hk2⟩

/-- Whenever `get_sample` returns a dataset, the metadata parsed, both
vocabulary lookups succeeded, and the dataset's classification, tree
name and weight are the looked-up values. -/
theorem get_sample_ok_inv {inp : SampleInput} {periods : Option (List String)}
    {d : Dataset} (h : (get_sample inp periods).2 = Except.ok (some d)) :
    ∃ m, parseMeta inp.xml = Except.ok m ∧
      classes.lookup m.classname = some d.classtype ∧
      types.lookup m.datatype = some d.datatype ∧
      d.treename = m.treename ∧ d.weight = m.weight := by
  unfold get_sample at h
  split at h
  · cases h
  · split at h
    · cases h
    · split at h
      · cases h
      · next m hm =>
        split at h
        · cases h
        · next ct hct =>
          split at h
          · cases h
          · next dt hdt =>
            split at h
            · split at h
              · cases h
              · next runs hruns =>
                simp only at h
                cases h
                exact ⟨m, hm, hct, hdt, rfl, rfl⟩
            · simp only at h
              cases h
              exact ⟨m, hm, hct, hdt, rfl, rfl⟩

/-- With a supplied-but-empty period list every parsed directory is
skipped (its run number is in no listed period), unparsed directories
are warned about, and the runs map is left exactly as it was. -/
theorem dataLoop_empty_filter (dirs : List Entry) (runs : List (Nat × RunEntry))
    (msgs : List Msg) :
    ∃ msgs2, dataLoop (some []) dirs runs msgs = (msgs2, Except.ok runs) := by
  induction dirs generalizing msgs with
  | nil => exact ⟨msgs, rfl⟩
  | cons dir rest ih =>
    cases hm : matchData dir.name.data with
    | none =>
      simp only [dataLoop, hm]
      exact ih _
    | some pr =>
      simp only [dataLoop, hm]
      exact ih msgs

/-- If some candidate directory parses and its period scan reaches an
undefined label, the whole loop aborts with a period diagnostic. -/
theorem dataLoop_abort {ps : List String} {dirs : List Entry} {e : Entry}
    {r : Nat} {edo : Option Nat} {p : String}
    (he : e ∈ dirs) (hm : matchData e.name.data = some (r, edo))
    (hp : periodScan r ps = Except.error p)
    (runs : List (Nat × RunEntry)) (msgs : List Msg) :
    ∃ msgs2 q, dataLoop (some ps) dirs runs msgs = (msgs2, Except.error ()) ∧
      Msg.periodNotDefined q ∈ msgs2 := by
  induction dirs generalizing runs msgs with
  | nil => cases he
  | cons dir rest ih =>
    rcases List.mem_cons.mp he with rfl | hrest
    · simp only [dataLoop, hm, periodCheck, hp]
      exact ⟨msgs ++ [Msg.periodNotDefined p], p, rfl, by simp⟩
    · cases hm2 : matchData dir.name.data with
      | none =>
        simp only [dataLoop, hm2]
        exact ih hrest _ _
      | some pr =>
        obtain ⟨r2, edo2⟩ := pr
        simp only [dataLoop, hm2, periodCheck]
        cases hscan : periodScan r2 ps with
        | error q2 =>
          exact ⟨msgs ++ [Msg.periodNotDefined q2], q2, rfl, by simp⟩
        | ok b =>
          cases b
          · exact ih hrest _ _
          · simp only
            cases hlk : (runs.lookup r2) with
            | some old =>
              by_cases hgt : edo2.getD 0 > old.edition
              · simp only [hlk, if_pos hgt]
                exact ih hrest _ _
              · simp only [hlk, if_neg hgt]
                exact ih hrest _ _
            | none =>
              simp only [hlk]
              exact ih hrest _ _

/-- Whenever the metadata parse succeeds, the document was well formed,
all four fields were present, and the weight expression evaluated. -/
theorem parseMeta_ok_inv {xml : Except Unit MetaDoc} {m : Meta}
    (h : parseMeta xml = Except.ok m) :
    ∃ doc, xml = Except.ok doc ∧ ∃ t c w tr,
      doc.typeField = some t ∧ doc.classField = some c ∧
      doc.weightField = some w ∧ doc.treeField = some tr ∧
      evalExpr w = some m.weight ∧
      m.datatype = upperStr t ∧ m.classname = upperStr c ∧ m.treename = tr := by
  unfold parseMeta at h
  split at h
  · cases h
  · split at h
    · next t c w tr htf hcf hwf htr =>
      split at h
      · next q hq =>
        cases h
        exact ⟨_, rfl, t, c, w, tr, htf, hcf, hwf, htr, hq, rfl, rfl, rfl⟩
      · cases h
    · cases h

/-! ### The claims -/

/-- Input exhibiting the unknown-datatype slip: the metadata parses, the
class string is known, but the normalized type string "FOO" is absent
from `types`. -/
def c1input : SampleInput :=
  { name := "sampleA", baseIsDir := true, metaIsFile := true,
    xml := Except.ok ⟨some "foo", some "signal", some (PyExpr.num 1), some "bigtree"⟩,
    rootEntries := [] }

/-- C1 (code bug): for a sample whose metadata parses but whose type
string is unknown, the claim (and the spec) require an absent result
with no escaping exception; the code prints the diagnostic but lacks
the `return None` of the parallel class branch, so `types[datatype]`
raises a KeyError that crosses the public boundary. -/
theorem c1_unknown_type_keyerror :
    types.lookup (upperStr "foo") = none ∧
    parseMeta c1input.xml = Except.ok ⟨"FOO", "SIGNAL", 1, "bigtree"⟩ ∧
    get_sample c1input none =
      (Msg.typeNotDefined "FOO" :: tableDiag types,
       Except.error (PyErr.keyError "FOO")) :=
  ⟨rfl, rfl, rfl⟩

/-- C6: any metadata failure — a malformed document, a missing field,
or a weight expression that does not evaluate — makes `get_sample`
return the absent result with the parse diagnostic; no exception
escapes the parsing stage. -/
theorem c6_parse_failure_total {inp : SampleInput} {periods : Option (List String)}
    (hdir : inp.baseIsDir = true) (hfile : inp.metaIsFile = true)
    (hbad : inp.xml = Except.error () ∨
      ∃ doc, inp.xml = Except.ok doc ∧
        (doc.typeField = none ∨ doc.classField = none ∨ doc.weightField = none ∨
         doc.treeField = none ∨ ∃ e, doc.weightField = some e ∧ evalExpr e = none)) :
    get_sample inp periods = ([Msg.couldNotParse], Except.ok none) := by
  have hfail : parseMeta inp.xml = Except.error () := by
    cases hpm : parseMeta inp.xml with
    | error u => cases u; rfl
    | ok m =>
      obtain ⟨doc, hx, t, c, w, tr, htf, hcf, hwf, htr, hev, _, _, _⟩ := parseMeta_ok_inv hpm
      rcases hbad with hxml | ⟨doc2, hxml, hca⟩
      · rw [hxml] at hx
        cases hx
      · rw [hxml] at hx
        injection hx with hx
        subst hx
        rcases hca with hh | hh | hh | hh | ⟨e2, he2, hev2⟩ <;> simp_all
  unfold get_sample
  simp [hdir, hfile, hfail]

/-- Concrete instance for C6: a metadata file whose weight expression
divides by zero. -/
def c6input : SampleInput :=
  { name := "sampleB", baseIsDir := true, metaIsFile := true,
    xml := Except.ok ⟨some "mc", some "signal",
      some (PyExpr.div (PyExpr.num 1) (PyExpr.num 0)), some "tree"⟩,
    rootEntries := [] }

theorem c6_witness :
    get_sample c6input none = ([Msg.couldNotParse], Except.ok none) :=
  c6_parse_failure_total rfl rfl
    (Or.inr ⟨_, rfl, Or.inr (Or.inr (Or.inr (Or.inr ⟨_, rfl, rfl⟩)))⟩)

/-- C7: when the weight field holds an arithmetic expression that
evaluates, any returned dataset carries exactly the evaluated value. -/
theorem c7_weight_evaluated {inp : SampleInput} {periods : Option (List String)}
    {d : Dataset} {doc : MetaDoc} {e : PyExpr} {q : ℚ}
    (hx : inp.xml = Except.ok doc) (hw : doc.weightField = some e)
    (he : evalExpr e = some q)
    (h : (get_sample inp periods).2 = Except.ok (some d)) :
    d.weight = q := by
  obtain ⟨m, hpm, _, _, _, hwt⟩ := get_sample_ok_inv h
  obtain ⟨doc2, hx2, t, c, w, tr, _, _, hwf, _, hev, _, _, _⟩ := parseMeta_ok_inv hpm
  rw [hx] at hx2
  injection hx2 with hx2
  subst hx2
  rw [hw] at hwf
  injection hwf with hwf
  subst hwf
  rw [he] at hev
  injection hev with hev
  rw [hwt, ← hev]

/-- Concrete instance for C7: weight text `0.1*1.5`. -/
def c7input : SampleInput :=
  { name := "sample7", baseIsDir := true, metaIsFile := true,
    xml := Except.ok ⟨some "mc", some "signal",
      some (PyExpr.mul (PyExpr.num (1/10)) (PyExpr.num (3/2))), some "tree"⟩,
    rootEntries := [] }

/-- The dataset `get_sample` resolves for `c7input`. -/
def c7out : Dataset := ⟨"sample7", 1, 1, "tree", 1/10 * (3/2), []⟩

theorem c7_witness : c7out.weight = 3/20 :=
  c7_weight_evaluated rfl rfl (by norm_num [evalExpr]) (show
    (get_sample c7input none).2 = Except.ok (some c7out) from rfl)

/-- C9: any returned dataset's classtype is a value of the `classes`
table and its datatype a value of the `types` table (the raw metadata
strings were replaced by their looked-up codes). -/
theorem c9_vocabulary_invariant {inp : SampleInput} {periods : Option (List String)}
    {d : Dataset} (h : (get_sample inp periods).2 = Except.ok (some d)) :
    (∃ k, (k, d.classtype) ∈ classes) ∧ (∃ k2, (k2, d.datatype) ∈ types) := by
  obtain ⟨m, _, hc, ht, _, _⟩ := get_sample_ok_inv h
  exact ⟨lookup_mem hc, lookup_mem ht⟩

/-- Concrete instance for C9: an MC/SIGNAL sample. -/
def c9input : SampleInput :=
  { name := "s9", baseIsDir := true, metaIsFile := true,
    xml := Except.ok ⟨some "mc", some "signal", some (PyExpr.num 2), some "tree"⟩,
    rootEntries := [⟨"d1", true, ["a.root.1", "b.txt", "c_root_x", ".rootish"]⟩] }

/-- The dataset `get_sample` resolves for `c9input`. -/
def c9out : Dataset := ⟨"s9", 1, 1, "tree", 2, ["d1/a.root.1", "d1/c_root_x"]⟩

theorem c9_witness :
    (∃ k, (k, c9out.classtype) ∈ classes) ∧ (∃ k2, (k2, c9out.datatype) ∈ types) :=
  c9_vocabulary_invariant (show (get_sample c9input none).2 = Except.ok (some c9out) from rfl)

/-- A DATA sample with no candidate directories, for the period-suffix
counterexample. -/
def c2input : SampleInput :=
  { name := "base", baseIsDir := true, metaIsFile := true,
    xml := Except.ok ⟨some "data", some "signal", some (PyExpr.num 1), some "tree"⟩,
    rootEntries := [] }

/-- C2 counterexample: with period filter ["AB"] the resolved name is
`base_AB`, not the claimed `baseAB` — the labels are appended after an
underscore, not with no separator. -/
theorem c2_counterexample :
    (get_sample c2input (some ["AB"])).2 =
      Except.ok (some ⟨"base_AB", 0, 1, "tree", 1, []⟩) ∧
    ("base_AB" : String) ≠ "base" ++ "AB" :=
  ⟨rfl, by decide⟩

/-- C2 amended: for every DATA sample resolved with a non-empty period
filter, the returned name is the base name, an underscore, then the
concatenation of the period labels in the order supplied. -/
theorem c2_underscore_suffix {inp : SampleInput} {ps : List String} {d : Dataset}
    (hps : ps ≠ []) (h : (get_sample inp (some ps)).2 = Except.ok (some d))
    (hdt : d.datatype = 0) :
    d.name = inp.name ++ "_" ++ String.mk (ps.flatMap String.data) := by
  have hpse : ps.isEmpty = false := by
    cases ps with
    | nil => exact absurd rfl hps
    | cons a t => rfl
  unfold get_sample at h
  split at h
  · cases h
  · split at h
    · cases h
    · split at h
      · cases h
      · next m hm =>
        split at h
        · cases h
        · split at h
          · cases h
          · next dt hdtl =>
            split at h
            · split at h
              · cases h
              · next runs hruns =>
                simp only at h
                injection h with h
                injection h with h
                subst h
                simp only [suffixName, hpse, Bool.false_eq_true, if_false]
            · next hcond =>
              simp only at h
              injection h with h
              injection h with h
              subst h
              simp only at hdt
              subst hdt
              exact absurd rfl hcond

/-- Concrete instance for C2 amended. -/
theorem c2_witness :
    Dataset.name ⟨"base_AB", 0, 1, "tree", 1, []⟩ =
      "base" ++ "_" ++ String.mk (["AB"].flatMap String.data) :=
  c2_underscore_suffix (by decide)
    (show (get_sample c2input (some ["AB"])).2 =
      Except.ok (some ⟨"base_AB", 0, 1, "tree", 1, []⟩) from rfl) rfl

/-- C10: a DATA sample resolved with a supplied-but-empty period list
still returns a dataset, every candidate directory having been filtered
out (its run number is in no listed period), with an empty file list
and the unsuffixed base name (an empty list is falsy, so no suffix is
appended). -/
theorem c10_empty_period_list {inp : SampleInput} {m : Meta} {ct : Nat}
    (hdir : inp.baseIsDir = true) (hfile : inp.metaIsFile = true)
    (hm : parseMeta inp.xml = Except.ok m)
    (hct : classes.lookup m.classname = some ct)
    (hdt : types.lookup m.datatype = some 0) :
    ∃ msgs, get_sample inp (some []) =
      (msgs, Except.ok (some ⟨inp.name, 0, ct, m.treename, m.weight, []⟩)) := by
  obtain ⟨msgs2, hdl⟩ := dataLoop_empty_filter (actualDirs inp.rootEntries) [] []
  refine ⟨msgs2, ?_⟩
  unfold get_sample
  simp only [hdir, hfile, hm, hct, hdt, Bool.true_eq_false, if_false,
    (show (types.lookup "DATA" : Option Nat) = some 0 from rfl), hdl]
  simp [suffixName, mkFiles]

/-- Concrete instance for C10: one candidate directory that parses and
contains a root file, yet is filtered out by the empty period list. -/
def c10dir : Entry :=
  ⟨"group10.phys.153000.str.tag.1.D3PD_StreamD3PD_TauSMALL", true, ["x.root"]⟩

def c10input : SampleInput :=
  { name := "c10base", baseIsDir := true, metaIsFile := true,
    xml := Except.ok ⟨some "data", some "signal", some (PyExpr.num 2), some "tree"⟩,
    rootEntries := [c10dir] }

theorem c10_witness :
    ∃ msgs, get_sample c10input (some []) =
      (msgs, Except.ok (some ⟨"c10base", 0, 1, "tree", 2, []⟩)) :=
  @c10_empty_period_list c10input ⟨"DATA", "SIGNAL", 2, "tree"⟩ 1 rfl rfl rfl rfl rfl

/-- C5: when two candidate directories parse to the same run number the
loop warns about multiple editions and retains the second directory
exactly when its edition (0 when the suffix is absent) is strictly
greater than the first's; on a tie the first-seen directory is kept. -/
theorem c5_edition_dedup {a b : Entry} {r : Nat} {x y : Option Nat}
    (h1 : matchData a.name.data = some (r, x))
    (h2 : matchData b.name.data = some (r, y)) :
    dataLoop none [a, b] [] [] =
      ([Msg.multipleEditions b.name],
       Except.ok [(r, if x.getD 0 < y.getD 0 then ⟨y.getD 0, b⟩ else ⟨x.getD 0, a⟩)]) := by
  by_cases hcmp : x.getD 0 < y.getD 0
  · simp [dataLoop, h1, h2, periodCheck, updateRun, hcmp]
  · simp [dataLoop, h1, h2, periodCheck, hcmp]

/-- Concrete instance for C5: same run 42, first directory without an
edition suffix (edition 0), second with edition 2: the second wins. -/
def c5d1 : Entry := ⟨"group1.g.42.s.t.1.D3PD_StreamD3PD_TauSMALL", true, ["a.root"]⟩

def c5d2 : Entry := ⟨"group1.g.42.s.t.1.D3PD.2_StreamD3PD_TauSMALL", true, ["b.root"]⟩

theorem c5_witness :
    dataLoop none [c5d1, c5d2] [] [] =
      ([Msg.multipleEditions c5d2.name], Except.ok [(42, ⟨2, c5d2⟩)]) := by
  have h := c5_edition_dedup
    (show matchData c5d1.name.data = some (42, none) from rfl)
    (show matchData c5d2.name.data = some (42, some 2) from rfl)
  simpa using h

/-- A parsed DATA candidate directory with run 153000 (inside period
AB) for the C3 counterexample. -/
def c3dir : Entry :=
  ⟨"group1.g.153000.s.t.1.D3PD_StreamD3PD_TauSMALL", true, ["x.root"]⟩

def c3input : SampleInput :=
  { name := "c3base", baseIsDir := true, metaIsFile := true,
    xml := Except.ok ⟨some "data", some "signal", some (PyExpr.num 1), some "tree"⟩,
    rootEntries := [c3dir] }

/-- C3 counterexample: "ZZ" is absent from the period table, yet with
filter ["AB", "ZZ"] resolution completes with a dataset — the scan of
the only candidate (run 153000) stops at "AB", whose range contains the
run, so "ZZ" is never checked. -/
theorem c3_counterexample :
    data_periods.lookup "ZZ" = none ∧
    (get_sample c3input (some ["AB", "ZZ"])).2 =
      Except.ok (some ⟨"c3base_ABZZ", 0, 1, "tree", 1,
        ["group1.g.153000.s.t.1.D3PD_StreamD3PD_TauSMALL/x.root"]⟩) :=
  ⟨rfl, rfl⟩

/-- C3 amended: an absent period label aborts resolution (absent result
plus diagnostic) when some parsed candidate directory's in-order label
scan reaches it, i.e. when every earlier label is defined and its range
misses the directory's run number; a label after the first containing
range, or any label when no candidate is scanned, goes unchecked. -/
theorem c3_unknown_period_abort {inp : SampleInput} {ps : List String} {m : Meta}
    {ct : Nat} {e : Entry} {r : Nat} {x : Option Nat} {p : String}
    (hdir : inp.baseIsDir = true) (hfile : inp.metaIsFile = true)
    (hm : parseMeta inp.xml = Except.ok m)
    (hct : classes.lookup m.classname = some ct)
    (hdt : types.lookup m.datatype = some 0)
    (he : e ∈ actualDirs inp.rootEntries)
    (hmd : matchData e.name.data = some (r, x))
    (hscan : periodScan r ps = Except.error p) :
    (get_sample inp (some ps)).2 = Except.ok none ∧
      ∃ q, Msg.periodNotDefined q ∈ (get_sample inp (some ps)).1 := by
  obtain ⟨msgs2, q, hdl, hq⟩ := dataLoop_abort he hmd hscan [] []
  unfold get_sample
  simp only [hdir, hfile, hm, hct, hdt, Bool.true_eq_false, if_false,
    (show (types.lookup "DATA" : Option Nat) = some 0 from rfl), hdl]
  exact ⟨rfl, q, by simpa using hq⟩

/-- Concrete instance for C3 amended: with filter ["ZZ"] the scan of
the candidate's run 153000 reaches "ZZ" immediately and resolution
aborts. -/
theorem c3_witness :
    (get_sample c3input (some ["ZZ"])).2 = Except.ok none ∧
      ∃ q, Msg.periodNotDefined q ∈ (get_sample c3input (some ["ZZ"])).1 :=
  c3_unknown_period_abort rfl rfl
    (show parseMeta c3input.xml = Except.ok ⟨"DATA", "SIGNAL", 1, "tree"⟩ from rfl)
    rfl rfl
    (show c3dir ∈ actualDirs c3input.rootEntries by simp [actualDirs, globStar, isHidden, c3dir, c3input])
    (show matchData c3dir.name.data = some (153000, none) from rfl)
    (show periodScan 153000 ["ZZ"] = Except.error "ZZ" from rfl)

/-- An MC sample whose only candidate directory holds the three files
of the spec's example plus a hidden `.rootish`. -/
def c8input : SampleInput :=
  { name := "s8", baseIsDir := true, metaIsFile := true,
    xml := Except.ok ⟨some "mc", some "signal", some (PyExpr.num 2), some "tree"⟩,
    rootEntries := [⟨"d1", true, ["a.root.1", "b.txt", "c_root_x", ".rootish"]⟩] }

/-- C8 counterexample: `.rootish` contains "root" as a substring, yet
the aggregation omits it — `glob` never matches a leading-dot name with
the pattern `*root*`. -/
theorem c8_counterexample :
    containsRoot ".rootish" = true ∧
    (get_sample c8input none).2 =
      Except.ok (some ⟨"s8", 1, 1, "tree", 2, ["d1/a.root.1", "d1/c_root_x"]⟩) ∧
    ("d1/.rootish" : String) ∉ ["d1/a.root.1", "d1/c_root_x"] :=
  ⟨rfl, rfl, by decide⟩

/-- C8 amended: for every MC sample, every non-hidden immediate
subdirectory contributes exactly its non-hidden entries containing
"root" as a case-sensitive substring, in enumeration order with no
deduplication; hidden entries and hidden subdirectories are skipped by
the glob. -/
theorem c8_mc_aggregation {inp : SampleInput} {periods : Option (List String)}
    {d : Dataset} (h : (get_sample inp periods).2 = Except.ok (some d))
    (hdt : d.datatype = 1) :
    d.files =
      ((inp.rootEntries.filter (fun e => !isHidden e.name)).filter (fun e => e.isDir)).flatMap
        (fun dir => (dir.entries.filter (fun n => !isHidden n && containsRoot n)).map
          (fun f => dir.name ++ "/" ++ f)) := by
  unfold get_sample at h
  split at h
  · cases h
  · split at h
    · cases h
    · split at h
      · cases h
      · next m hm =>
        split at h
        · cases h
        · split at h
          · cases h
          · next dt hdtl =>
            split at h
            · next hcond =>
              split at h
              · cases h
              · next runs hruns =>
                simp only at h
                injection h with h
                injection h with h
                subst h
                simp only at hdt
                subst hdt
                simp only [(show (types.lookup "DATA" : Option Nat) = some 0 from rfl),
                  Option.some.injEq] at hcond
                omega
            · simp only at h
              injection h with h
              injection h with h
              subst h
              simp only [mcFiles, actualDirs, globStar, globRoot]

/-- Concrete instance for C8 amended, on `c8input`. -/
theorem c8_witness :
    Dataset.files ⟨"s8", 1, 1, "tree", 2, ["d1/a.root.1", "d1/c_root_x"]⟩ =
      ((c8input.rootEntries.filter (fun e => !isHidden e.name)).filter
          (fun e => e.isDir)).flatMap
        (fun dir => (dir.entries.filter (fun n => !isHidden n && containsRoot n)).map
          (fun f => dir.name ++ "/" ++ f)) :=
  c8_mc_aggregation (show (get_sample c8input none).2 =
    Except.ok (some ⟨"s8", 1, 1, "tree", 2, ["d1/a.root.1", "d1/c_root_x"]⟩) from rfl) rfl

/-- C4 counterexample: the basename
`group1.g.2.s.t.3.D3PD_StreamD3PD_TauSMALL` is accepted by the source
pattern (whose tail literal is `_StreamD3PD_Tau`) but not by the spec's
template (whose tail literal is `_StreamD3PDTau`), so the claimed
"if and only if" fails at this input. -/
theorem c4_counterexample :
    (matchData ("group1.g.2.s.t.3.D3PD_StreamD3PD_TauSMALL".data)).isSome = true ∧
    specTemplateMatch ("group1.g.2.s.t.3.D3PD_StreamD3PD_TauSMALL".data) = false :=
  ⟨rfl, rfl⟩

/-- C4 amended: a candidate basename is accepted by the recorded-data
grammar exactly when it decomposes along the template
`group<year><s><group><s><run><s><stream><s><tag><s><version><s>D3PD[<s><edition>]_StreamD3PD_Tau(SMALL|MEDIUM)`
where every `<s>` is one arbitrary non-newline character (the dots of
the source pattern are unescaped), the tail literal carries the second
underscore, and the match ends at the string end or just before one
final newline. -/
theorem c4_grammar_iff (s : String) :
    (matchData s.data).isSome = true ↔ DataDecomp s.data :=
  matchData_isSome_iff s.data

/-- Concrete instance for C4 amended: a well-formed edition-2 basename
admits the decomposition. -/
theorem c4_witness :
    DataDecomp ("group1.g.42.s.t.1.D3PD.2_StreamD3PD_TauSMALL".data) :=
  (c4_grammar_iff "group1.g.42.s.t.1.D3PD.2_StreamD3PD_TauSMALL").mp rfl

end Rootpy
